import Mathlib

/-!
Verification development for the Krylex streaming-broadcast engine.

Shallow embedding of the core subsystems:
* `TradeGenerator`  — the per-symbol price simulation engine
  (mock-data-generator/src/TradeGenerator.js).
* `BackendGen`      — the backend trade generator (backend generators/TradeGenerator.js).
* `StreamRunner`    — the rate-governed batch scheduler (mock-data-generator/src/StreamRunner.js).
* `BackendGateway`  — the backend WebSocket gateway with batching, liveness flags
  and heartbeat (backend websocket module).
* `SimpleGateway`   — the lighter WebSocket gateway with timestamp-based
  heartbeat sweeps every 60 s.
* `WsClient`        — the client-side reconnect/backoff state (frontend useWebSocket hook).

JavaScript numbers are modelled as exact rationals (ℚ); `Math.floor` is `Int.floor`,
`Math.round x` is `⌊x + 1/2⌋` (which matches JS rounding on halves, including
negatives), and `Math.random()` draws are explicit inputs in `[0,1)`.  The output of
the Box–Muller helper `gaussianRandom()` is abstracted as an explicit rational
input (its mathematical image over real-valued draws spans a wide symmetric
interval around 0; concrete values used in theorems are achievable by actual
draws, e.g. `gauss = -30` arises from `u1 = exp (-900/2)`, `u2 = 1/2`).
-/

set_option maxRecDepth 4000

namespace Krylex

/-- JS `Math.max(min, Math.min(max, val))` as in the source helper `clamp`. -/
def clamp (v lo hi : ℚ) : ℚ := max lo (min hi v)

/-- JS `Math.round`: round half toward +∞. -/
def jsRound (x : ℚ) : ℤ := ⌊x + 1/2⌋

/-- Source helper `roundTo(num, 2)`: `Math.round(num * 100) / 100`. -/
def roundTo2 (x : ℚ) : ℚ := (jsRound (x * 100) : ℚ) / 100

/-- Trade side. -/
inductive Side where
  | buy
  | sell
deriving DecidableEq, Repr

namespace TradeGenerator

/-- Per-symbol simulation state (`this._state[sym]` in TradeGenerator.js). -/
structure SymbolState where
  price : ℚ
  basePrice : ℚ
  momentum : ℚ
  volatilityMultiplier : ℚ
deriving DecidableEq, Repr

/-- The `Math.random()` draws consumed by one `nextTrade` call, in source order.
`gauss` stands for the value returned by `gaussianRandom()` (draws 2 and 3 of
the call, combined by the Box–Muller transform). -/
structure TickRand where
  rVol : ℚ      -- draw for the volatility-multiplier perturbation
  gauss : ℚ     -- output of gaussianRandom()
  rVolume : ℚ   -- draw for the base volume
  rJitter : ℚ   -- draw for the volume jitter
  rBias : ℚ     -- draw for the buy-bias noise
  rSide : ℚ     -- draw for the Bernoulli side decision
deriving Repr

/-- Engine-level configuration and state (fields of the TradeGenerator class). -/
structure Engine where
  symbols : List String
  volatility : ℚ
  momentumFactor : ℚ
  meanReversionStrength : ℚ
  state : String → SymbolState
  tradeId : ℕ

/-- Default numeric configuration of the constructor:
volatility 0.0015, momentumFactor 0.6, meanReversionStrength 0.02. -/
def defaultVolatility : ℚ := 15/10000
def defaultMomentumFactor : ℚ := 3/5
def defaultMeanReversionStrength : ℚ := 1/50

/-- A trade record as returned by `nextTrade` (timestamp abstracted to ℕ). -/
structure Trade where
  id : ℕ
  timestamp : ℕ
  symbol : String
  price : ℚ
  volume : ℤ
  side : Side
deriving DecidableEq, Repr

/-- The updated volatility multiplier of `nextTrade(symbol)`:
`clamp(volatilityMultiplier + (random - 0.5) * 0.05, 0.4, 2.5)`. -/
def vmOf (s : SymbolState) (r : TickRand) : ℚ :=
  clamp (s.volatilityMultiplier + (r.rVol - 1/2) * (5/100)) (2/5) (5/2)

/-- The `pctChange` computed inside `nextTrade`: Box–Muller shock scaled by
`volatility * volatilityMultiplier`, plus `momentum * momentumFactor`, plus
mean reversion `-((price - basePrice)/basePrice) * meanReversionStrength`. -/
def pctChangeOf (vol momF revS : ℚ) (s : SymbolState) (r : TickRand) : ℚ :=
  r.gauss * (vol * vmOf s r) + s.momentum * momF
    + -((s.price - s.basePrice) / s.basePrice) * revS

/-- The state-update part of `nextTrade(symbol)`: price multiplied by
`1 + pctChange`, then the source's bounds line
`Math.max(s.price * 0.5, Math.min(s.price, s.basePrice * 2))` (note: the lower
arm uses the updated price, not the base price), then two-decimal rounding;
`momentum` becomes the pctChange just applied. -/
def stepState (vol momF revS : ℚ) (s : SymbolState) (r : TickRand) : SymbolState :=
  let pctChange := pctChangeOf vol momF revS s r
  let p1 := s.price * (1 + pctChange)
  let p2 := max (p1 * (1/2)) (min p1 (s.basePrice * 2))
  { price := roundTo2 p2
    basePrice := s.basePrice
    momentum := pctChange
    volatilityMultiplier := vmOf s r }

/-- The volume computed inside `nextTrade`:
`50 + ⌊rVolume*200⌋ + ⌊|pctChange|*80000⌋ + ⌊rJitter*50⌋`. -/
def volumeOf (pctChange rVolume rJitter : ℚ) : ℤ :=
  (50 + ⌊rVolume * 200⌋) + ⌊|pctChange| * 80000⌋ + ⌊rJitter * 50⌋

/-- The side computed inside `nextTrade`:
buy iff `rSide < clamp (0.5 + pctChange*30 + (rBias - 0.5)*0.3) 0.25 0.75`. -/
def sideOf (pctChange rBias rSide : ℚ) : Side :=
  let buyBias := 1/2 + pctChange * 30 + (rBias - 1/2) * (3/10)
  if rSide < clamp buyBias (1/4) (3/4) then Side.buy else Side.sell

/-- Source method `nextTrade(symbol)` at the engine level: advances the symbol state,
bumps the trade id and returns the trade record. -/
def nextTrade (e : Engine) (symbol : String) (r : TickRand) (now : ℕ) :
    Engine × Trade :=
  let s := e.state symbol
  let pct := pctChangeOf e.volatility e.momentumFactor e.meanReversionStrength s r
  let s' := stepState e.volatility e.momentumFactor e.meanReversionStrength s r
  let e' : Engine :=
    { e with
      state := fun x => if x = symbol then s' else e.state x
      tradeId := e.tradeId + 1 }
  (e', { id := e.tradeId + 1
         timestamp := now
         symbol := symbol
         price := s'.price
         volume := volumeOf pct r.rVolume r.rJitter
         side := sideOf pct r.rBias r.rSide })

/-- One batch-element draw: the uniform symbol pick plus the tick draws. -/
structure BatchRand where
  rSym : ℚ
  tick : TickRand

/-- Source method `generateBatch(count)`: `count` trades, each on a uniformly picked symbol
(`symbols[⌊rSym * symbols.length⌋]`), threading the engine state. -/
def generateBatch (e : Engine) (count : ℕ) (rand : ℕ → BatchRand) (now : ℕ) :
    Engine × List Trade :=
  match count with
  | 0 => (e, [])
  | n + 1 =>
      let br := rand 0
      let idx := (⌊br.rSym * e.symbols.length⌋).toNat
      let sym := e.symbols.getD idx "AAPL"
      let et := nextTrade e sym br.tick now
      let rest := generateBatch et.1 n (fun i => rand (i + 1)) now
      (rest.1, et.2 :: rest.2)

/-- Source method `reset()`: for every tracked symbol, price back to basePrice, momentum to 0,
volatilityMultiplier to 1; trade-id counter back to 0. -/
def reset (e : Engine) : Engine :=
  { e with
    state := fun sym =>
      if sym ∈ e.symbols then
        { (e.state sym) with
          price := (e.state sym).basePrice
          momentum := 0
          volatilityMultiplier := 1 }
      else e.state sym
    tradeId := 0 }

/-- Fresh per-symbol state used by the constructor. -/
def initState (base : ℚ) : SymbolState :=
  { price := base, basePrice := base, momentum := 0, volatilityMultiplier := 1 }

/-- A default-config engine tracking one symbol (AAPL, base price 189.5). -/
def aaplEngine : Engine :=
  { symbols := ["AAPL"]
    volatility := defaultVolatility
    momentumFactor := defaultMomentumFactor
    meanReversionStrength := defaultMeanReversionStrength
    state := fun _ => initState (1895/10)
    tradeId := 0 }

/-- A run of adversarial draws: multiplier kept at 1 (`rVol = 1/2`) and
`gaussianRandom() = -30` each tick (achievable: `u1 = exp (-450)`, `u2 = 1/2`
give `√(-2 ln u1) · cos (2π u2) = -30`; `exp (-450)` is far above the smallest
positive double). -/
def downRand : TickRand :=
  { rVol := 1/2, gauss := -30, rVolume := 0, rJitter := 0, rBias := 1/2, rSide := 0 }

/-- Iterate `stepState` with the default configuration from a given state. -/
def runSteps (s : SymbolState) (rs : List TickRand) : SymbolState :=
  rs.foldl
    (fun s r =>
      stepState defaultVolatility defaultMomentumFactor defaultMeanReversionStrength s r)
    s

/-- Evaluation rule for `stepState`: if the volatility multiplier, the
pctChange, the (inactive) bounds line and the rounding are each evaluated,
the whole step is. -/
theorem stepState_eq (vol momF revS v pct pr : ℚ) (n : ℤ) (s : SymbolState)
    (r : TickRand)
    (hv : vmOf s r = v)
    (hpct : pctChangeOf vol momF revS s r = pct)
    (hnc : max ((s.price * (1 + pct)) * (1/2))
          (min (s.price * (1 + pct)) (s.basePrice * 2)) = s.price * (1 + pct))
    (hfl : ⌊(s.price * (1 + pct)) * 100 + 1/2⌋ = n)
    (hpr : ((n : ℤ) : ℚ) / 100 = pr) :
    stepState vol momF revS s r =
      { price := pr, basePrice := s.basePrice, momentum := pct,
        volatilityMultiplier := v } := by
  simp only [stepState, roundTo2, jsRound]
  rw [hpct, hv, hnc, hfl, hpr]

end TradeGenerator

namespace StreamRunner

/-- The mutable state of a StreamRunner: configuration (`totalTrades` cap,
`batchSize`), the `_running` flag, the promise-resolution flag of `start()`,
the emitted-trade counter and the owned TradeGenerator engine.  Timers are
modelled by explicit `tick` applications; `resolved` records that the
`start()` promise has been resolved. -/
structure Runner where
  totalTrades : ℕ
  batchSize : ℕ
  running : Bool
  resolved : Bool
  totalEmitted : ℕ
  engine : TradeGenerator.Engine

/-- The state set up by `start()`: `_running = true`, `_totalEmitted = 0`. -/
def start (N B : ℕ) (e : TradeGenerator.Engine) : Runner :=
  { totalTrades := N, batchSize := B, running := true, resolved := false,
    totalEmitted := 0, engine := e }

/-- One firing of the emission timer: return if not running; if no remaining
capacity, `stop()` and resolve the promise; otherwise generate
`min(batchSize, remaining)` trades and add `batch.length` to the counter. -/
def tick (rnd : ℕ → TradeGenerator.BatchRand) (now : ℕ) (R : Runner) : Runner :=
  if R.running = false then R
  else if R.totalTrades ≤ R.totalEmitted then
    { R with running := false, resolved := true }
  else
    let count := min R.batchSize (R.totalTrades - R.totalEmitted)
    let eb := TradeGenerator.generateBatch R.engine count rnd now
    { R with engine := eb.1, totalEmitted := R.totalEmitted + eb.2.length }

/-- Applies `k` consecutive timer firings, each with its own slice of the random
stream. -/
def runTicks (rnds : ℕ → ℕ → TradeGenerator.BatchRand) (now : ℕ) :
    ℕ → Runner → Runner
  | 0, R => R
  | k + 1, R => runTicks (fun i => rnds (i + 1)) now k (tick (rnds 0) now R)

/-- Source method `stop()`: clears `_running` (and cancels the timers, after which no tick
fires — modelled by `runTicks` leaving a stopped runner unchanged). -/
def stop (R : Runner) : Runner := { R with running := false }

end StreamRunner

/-- Ready state of a transport connection. -/
inductive ReadyState where
  | wsOpen
  | wsClosing
  | wsClosed
deriving DecidableEq, Repr

namespace BackendGateway

/-- A buffered outbound entry `{type: "trade", data, timestamp}`. -/
structure BufMsg (τ : Type) where
  data : τ
  timestamp : ℕ
deriving DecidableEq, Repr

/-- A message the gateway sends to a client: either a batch envelope
`{type:"batch", trades, count, timestamp}` or a pong `{type:"pong", timestamp}`. -/
inductive ServerMsg (τ : Type) where
  | batch (trades : List (BufMsg τ)) (count : ℕ) (timestamp : ℕ)
  | pong (timestamp : ℕ)
deriving DecidableEq, Repr

/-- An application-level message received from a client. -/
inductive ClientMsg where
  | subscribe (channel : String)
  | ping
  | other
deriving DecidableEq, Repr

/-- A registered client of the backend gateway.  `isAlive` is the
`clientInfo.isAlive` flag read and cleared by `performHeartbeat`; `wsIsAlive`
is the separate `ws.isAlive` property set by the transport-level `pong`
handler; `sendFails` says whether `ws.send` currently throws for this peer;
`inbox` records the messages successfully delivered to it. -/
structure Client (τ : Type) where
  id : ℕ
  readyState : ReadyState
  isAlive : Bool
  wsIsAlive : Bool
  messagesSent : ℕ
  messagesReceived : ℕ
  sendFails : Bool
  inbox : List (ServerMsg τ)
deriving DecidableEq, Repr

/-- Gateway state: the client registry (a `Map` iterated in insertion order)
and the shared outbound `messageBuffer`. -/
structure Gateway (τ : Type) where
  clients : List (Client τ)
  messageBuffer : List (BufMsg τ)
deriving DecidableEq, Repr

/-- Constructor field `this.messageBufferSize = 50`. -/
def messageBufferSize : ℕ := 50

/-- Source method `broadcastBatch()`: return if the buffer or the registry is empty;
otherwise build one batch envelope from the whole buffer and try to send it
to every OPEN client — a throwing send is caught, logged and not retried,
and does not stop the loop — then clear the buffer. -/
def broadcastBatch (now : ℕ) (g : Gateway τ) : Gateway τ :=
  if g.messageBuffer.length = 0 ∨ g.clients.length = 0 then g
  else
    { clients := g.clients.map (fun c =>
        if c.readyState = ReadyState.wsOpen then
          if c.sendFails then c
          else
            { c with
              inbox := c.inbox ++
                [ServerMsg.batch g.messageBuffer g.messageBuffer.length now]
              messagesSent := c.messagesSent + 1 }
        else c)
      messageBuffer := [] }

/-- Source method `addTradeToBatch(trade)`: push the wrapped trade onto the buffer, and
flush immediately when the buffer reaches the 50-entry threshold. -/
def addTradeToBatch (t : τ) (now : ℕ) (g : Gateway τ) : Gateway τ :=
  let g' : Gateway τ := { g with messageBuffer := g.messageBuffer ++ [⟨t, now⟩] }
  if messageBufferSize ≤ g'.messageBuffer.length then broadcastBatch now g' else g'

/-- Source method `sendToClient(clientId, data)`: deliver to that client if it is
registered and OPEN; a throwing send is caught and logged. -/
def sendToClient (cid : ℕ) (m : ServerMsg τ) (g : Gateway τ) : Gateway τ :=
  { g with clients := g.clients.map (fun c =>
      if c.id = cid then
        if c.readyState = ReadyState.wsOpen then
          if c.sendFails then c
          else { c with inbox := c.inbox ++ [m], messagesSent := c.messagesSent + 1 }
        else c
      else c) }

/-- Source method `handleClientMessage(clientId, message)`: bump `messagesReceived`; a
`ping` is answered with `{type:"pong", timestamp}` via `sendToClient`;
`subscribe` and unknown types are only logged.  Note: no branch touches the
`isAlive` liveness flag. -/
def handleClientMessage (cid : ℕ) (msg : ClientMsg) (now : ℕ) (g : Gateway τ) :
    Gateway τ :=
  let g1 : Gateway τ :=
    { g with clients := g.clients.map (fun c =>
        if c.id = cid then { c with messagesReceived := c.messagesReceived + 1 }
        else c) }
  match msg with
  | ClientMsg.ping => sendToClient cid (ServerMsg.pong now) g1
  | ClientMsg.subscribe _ => g1
  | ClientMsg.other => g1

/-- The transport-level `pong` handler registered in `handleClientConnection`:
it sets `ws.isAlive = true` — the property on the socket object, not the
`clientInfo.isAlive` field that `performHeartbeat` reads. -/
def onTransportPong (cid : ℕ) (g : Gateway τ) : Gateway τ :=
  { g with clients := g.clients.map (fun c =>
      if c.id = cid then { c with wsIsAlive := true } else c) }

/-- Source method `performHeartbeat()`: terminate and remove every client whose
`clientInfo.isAlive` is false; clear the flag of the rest and ping them. -/
def performHeartbeat (g : Gateway τ) : Gateway τ :=
  { g with clients :=
      (g.clients.filter (fun c => c.isAlive)).map (fun c => { c with isAlive := false }) }

/-- One firing of the 100 ms broadcast interval: flush if the buffer is
non-empty, then run the heartbeat check. -/
def intervalTick (now : ℕ) (g : Gateway τ) : Gateway τ :=
  performHeartbeat (if 0 < g.messageBuffer.length then broadcastBatch now g else g)

/-- The gateway operations a trade producer can drive: an enqueue or a
buffer flush. -/
inductive GwOp (τ : Type) where
  | add (t : τ) (now : ℕ)
  | flush (now : ℕ)

/-- Apply one operation. -/
def applyOp (g : Gateway τ) : GwOp τ → Gateway τ
  | GwOp.add t now => addTradeToBatch t now g
  | GwOp.flush now => broadcastBatch now g

/-- Apply a sequence of operations in order. -/
def runOps (ops : List (GwOp τ)) (g : Gateway τ) : Gateway τ :=
  ops.foldl applyOp g

/-- The inbox of the `i`-th registered client ([] when out of range). -/
def inboxAt (g : Gateway τ) (i : ℕ) : List (ServerMsg τ) :=
  (g.clients.map (fun c => c.inbox)).getD i []

/-- The `messagesSent` counter of the `i`-th registered client. -/
def sentAt (g : Gateway τ) (i : ℕ) : ℕ :=
  (g.clients.map (fun c => c.messagesSent)).getD i 0

/-- The trades carried by a server message (empty for a pong). -/
def msgTrades : ServerMsg τ → List (BufMsg τ)
  | ServerMsg.batch ts _ _ => ts
  | ServerMsg.pong _ => []

end BackendGateway

namespace SimpleGateway

/-- A client of the simple gateway: unique id, the `isAlive` flag and the
`lastHeartbeat` timestamp, both refreshed by the transport `pong` handler and
by an application-level `ping` message (which is also answered with a
`{type:"pong"}` reply). -/
structure Client where
  id : ℕ
  isAlive : Bool
  lastHeartbeat : ℕ
  readyState : ReadyState
deriving DecidableEq, Repr

/-- Simple-gateway state: the registry, plus a delivery log of
(clientId, broadcastTag) pairs recording which client received which
broadcast. -/
structure Gateway where
  clients : List Client
  log : List (ℕ × ℕ)
deriving DecidableEq, Repr

/-- Both liveness answers — the transport `pong` event handler and the
`message` handler's `ping` branch — run
`client.isAlive = true; client.lastHeartbeat = Date.now()`. -/
def markAlive (cid now : ℕ) (g : Gateway) : Gateway :=
  { g with clients := g.clients.map (fun c =>
      if c.id = cid then { c with isAlive := true, lastHeartbeat := now } else c) }

/-- The heartbeat sweep (runs every 60 000 ms): terminate and remove every
client whose last heartbeat is more than 90 000 ms old; ping the others. -/
def heartbeatSweep (now : ℕ) (g : Gateway) : Gateway :=
  { g with clients := g.clients.filter (fun c => now - c.lastHeartbeat ≤ 90000) }

/-- Source method `broadcast(message)`: return when no client is registered, otherwise send
to every OPEN client (recorded in the log). -/
def broadcast (tag : ℕ) (g : Gateway) : Gateway :=
  if g.clients.length = 0 then g
  else
    let sent := (g.clients.filter (fun c => c.readyState = ReadyState.wsOpen)).map
      (fun c => (c.id, tag))
    { g with log := g.log ++ sent }

/-- Events affecting the registry: a heartbeat sweep, a liveness answer from
a client (pong frame or ping message), or a batched-trades broadcast. -/
inductive Ev where
  | sweep (now : ℕ)
  | answer (cid : ℕ) (now : ℕ)
  | broadcast (tag : ℕ)

/-- Apply one event. -/
def applyEv (g : Gateway) : Ev → Gateway
  | Ev.sweep now => heartbeatSweep now g
  | Ev.answer cid now => markAlive cid now g
  | Ev.broadcast tag => broadcast tag g

/-- Apply a sequence of events in order. -/
def runEvents (evs : List Ev) (g : Gateway) : Gateway :=
  evs.foldl applyEv g

end SimpleGateway

namespace WsClient

/-- The client-side reconnect state kept by the `useWebSocket` hook:
`reconnectAttempts` ref and `reconnectDelay` ref (ms). -/
structure State where
  reconnectAttempts : ℕ
  reconnectDelay : ℚ
deriving DecidableEq, Repr

/-- Initial ref values: `reconnectAttempts = 0`, `reconnectDelay = 3000`. -/
def init : State := { reconnectAttempts := 0, reconnectDelay := 3000 }

/-- The `onopen` handler's reset of the reconnect refs:
attempts back to 0, delay back to 3000 ms. -/
def onOpen (_s : State) : State := { reconnectAttempts := 0, reconnectDelay := 3000 }

/-- The `onclose` handler: if `reconnectAttempts < 5`, increment the counter,
schedule a reconnect after the *current* delay, then grow the delay by ×1.5
capped at 30000; otherwise schedule nothing. Returns the new state and the
scheduled delay (if any). -/
def onClose (s : State) : State × Option ℚ :=
  if s.reconnectAttempts < 5 then
    ({ reconnectAttempts := s.reconnectAttempts + 1
       reconnectDelay := min (s.reconnectDelay * (3/2)) 30000 },
     some s.reconnectDelay)
  else (s, none)

/-- Apply `k` consecutive close events, collecting the scheduled delays. -/
def runCloses : ℕ → State → State × List (Option ℚ)
  | 0, s => (s, [])
  | k + 1, s =>
      let (s', d) := onClose s
      let (s'', ds) := runCloses k s'
      (s'', d :: ds)

end WsClient

/-- StreamRunner.start: `ticksPerSecond = Math.max(1, tradesPerSecond / batchSize)`;
`intervalMs = Math.max(1, Math.floor(1000 / ticksPerSecond))`. -/
def streamRunnerIntervalMs (tradesPerSecond batchSize : ℚ) : ℚ :=
  let ticksPerSecond := max 1 (tradesPerSecond / batchSize)
  ((max 1 ⌊1000 / ticksPerSecond⌋ : ℤ) : ℚ)

/-- DataStreamingService.start: `batchesPerSecond = Math.ceil(tradesPerSecond / batchSize)`;
`intervalMs = 1000 / batchesPerSecond`. -/
def dataStreamingIntervalMs (tradesPerSecond batchSize : ℚ) : ℚ :=
  1000 / ((⌈tradesPerSecond / batchSize⌉ : ℤ) : ℚ)

section ClaimTheorems

open TradeGenerator

/-- C1: the claim asserts every `nextTrade` leaves the stored price within
`[0.5 · basePrice, 2 · basePrice]`.  The bounds line of the source is
`Math.max(s.price * 0.5, Math.min(s.price, s.basePrice * 2))` — the lower
arm uses the already-updated `s.price`, not `s.basePrice`, so it never clamps
a falling price.  Evaluating the code on the default-config AAPL state
(base price 189.5) under eight consecutive achievable draws with
`gaussianRandom() = -30` drives the stored price to 93.85, strictly below
`0.5 · basePrice = 94.75`, while the class docstring ("bounded random walk")
and the inline comment ("hard bounds") promise the clamp. -/
theorem nextTrade_lower_bound_violated :
    (runSteps (initState (1895/10)) (List.replicate 8 downRand)).basePrice = 1895/10 ∧
      (runSteps (initState (1895/10)) (List.replicate 8 downRand)).price = 1877/20 ∧
      (runSteps (initState (1895/10)) (List.replicate 8 downRand)).price
        < (runSteps (initState (1895/10)) (List.replicate 8 downRand)).basePrice
            * (1/2) := by
  have hvm : ∀ s : SymbolState, s.volatilityMultiplier = 1 → vmOf s downRand = 1 := by
    intro s hs
    simp only [vmOf, clamp, downRand, hs]
    norm_num [min_def, max_def]
  have h1 : stepState defaultVolatility defaultMomentumFactor
      defaultMeanReversionStrength ⟨1895/10, 1895/10, 0, 1⟩ downRand =
      ⟨18097/100, 1895/10, -9/200, 1⟩ := by
    have hv := hvm ⟨1895/10, 1895/10, 0, 1⟩ rfl
    refine stepState_eq _ _ _ _ _ _ 18097 _ _ hv ?_ ?_ ?_ ?_
    · simp only [pctChangeOf, defaultVolatility, defaultMomentumFactor,
        defaultMeanReversionStrength]
      rw [hv]
      norm_num [downRand]
    · norm_num [min_def, max_def]
    · norm_num [Int.floor_eq_iff]
    · norm_num
  have h2 : stepState defaultVolatility defaultMomentumFactor
      defaultMeanReversionStrength ⟨18097/100, 1895/10, -9/200, 1⟩ downRand =
      ⟨1681/10, 1895/10, -67367/947500, 1⟩ := by
    have hv := hvm ⟨18097/100, 1895/10, -9/200, 1⟩ rfl
    refine stepState_eq _ _ _ _ _ _ 16810 _ _ hv ?_ ?_ ?_ ?_
    · simp only [pctChangeOf, defaultVolatility, defaultMomentumFactor,
        defaultMeanReversionStrength]
      rw [hv]
      norm_num [downRand]
    · norm_num [min_def, max_def]
    · norm_num [Int.floor_eq_iff]
    · norm_num
  have h3 : stepState defaultVolatility defaultMomentumFactor
      defaultMeanReversionStrength ⟨1681/10, 1895/10, -67367/947500, 1⟩ downRand =
      ⟨7687/50, 1895/10, -809177/9475000, 1⟩ := by
    have hv := hvm ⟨1681/10, 1895/10, -67367/947500, 1⟩ rfl
    refine stepState_eq _ _ _ _ _ _ 15374 _ _ hv ?_ ?_ ?_ ?_
    · simp only [pctChangeOf, defaultVolatility, defaultMomentumFactor,
        defaultMeanReversionStrength]
      rw [hv]
      norm_num [downRand]
    · norm_num [min_def, max_def]
    · norm_num [Int.floor_eq_iff]
    · norm_num
  have h4 : stepState defaultVolatility defaultMomentumFactor
      defaultMeanReversionStrength ⟨7687/50, 1895/10, -809177/9475000, 1⟩ downRand =
      ⟨3488/25, 1895/10, -2190303/23687500, 1⟩ := by
    have hv := hvm ⟨7687/50, 1895/10, -809177/9475000, 1⟩ rfl
    refine stepState_eq _ _ _ _ _ _ 13952 _ _ hv ?_ ?_ ?_ ?_
    · simp only [pctChangeOf, defaultVolatility, defaultMomentumFactor,
        defaultMeanReversionStrength]
      rw [hv]
      norm_num [downRand]
    · norm_num [min_def, max_def]
    · norm_num [Int.floor_eq_iff]
    · norm_num
  have h5 : stepState defaultVolatility defaultMomentumFactor
      defaultMeanReversionStrength ⟨3488/25, 1895/10, -2190303/23687500, 1⟩ downRand =
      ⟨3156/25, 1895/10, -22551693/236875000, 1⟩ := by
    have hv := hvm ⟨3488/25, 1895/10, -2190303/23687500, 1⟩ rfl
    refine stepState_eq _ _ _ _ _ _ 12624 _ _ hv ?_ ?_ ?_ ?_
    · simp only [pctChangeOf, defaultVolatility, defaultMomentumFactor,
        defaultMeanReversionStrength]
      rw [hv]
      norm_num [downRand]
    · norm_num [min_def, max_def]
    · norm_num [Int.floor_eq_iff]
    · norm_num
  have h6 : stepState defaultVolatility defaultMomentumFactor
      defaultMeanReversionStrength ⟨3156/25, 1895/10, -22551693/236875000, 1⟩ downRand =
      ⟨11419/100, 1895/10, -56522227/592187500, 1⟩ := by
    have hv := hvm ⟨3156/25, 1895/10, -22551693/236875000, 1⟩ rfl
    refine stepState_eq _ _ _ _ _ _ 11419 _ _ hv ?_ ?_ ?_ ?_
    · simp only [pctChangeOf, defaultVolatility, defaultMomentumFactor,
        defaultMeanReversionStrength]
      rw [hv]
      norm_num [downRand]
    · norm_num [min_def, max_def]
    · norm_num [Int.floor_eq_iff]
    · norm_num
  have h7 : stepState defaultVolatility defaultMomentumFactor
      defaultMeanReversionStrength ⟨11419/100, 1895/10, -56522227/592187500, 1⟩ downRand =
      ⟨5171/50, 1895/10, -558548987/5921875000, 1⟩ := by
    have hv := hvm ⟨11419/100, 1895/10, -56522227/592187500, 1⟩ rfl
    refine stepState_eq _ _ _ _ _ _ 10342 _ _ hv ?_ ?_ ?_ ?_
    · simp only [pctChangeOf, defaultVolatility, defaultMomentumFactor,
        defaultMeanReversionStrength]
      rw [hv]
      norm_num [downRand]
    · norm_num [min_def, max_def]
    · norm_num [Int.floor_eq_iff]
    · norm_num
  have h8 : stepState defaultVolatility defaultMomentumFactor
      defaultMeanReversionStrength ⟨5171/50, 1895/10, -558548987/5921875000, 1⟩ downRand =
      ⟨1877/20, 1895/10, -684767209/7402343750, 1⟩ := by
    have hv := hvm ⟨5171/50, 1895/10, -558548987/5921875000, 1⟩ rfl
    refine stepState_eq _ _ _ _ _ _ 9385 _ _ hv ?_ ?_ ?_ ?_
    · simp only [pctChangeOf, defaultVolatility, defaultMomentumFactor,
        defaultMeanReversionStrength]
      rw [hv]
      norm_num [downRand]
    · norm_num [min_def, max_def]
    · norm_num [Int.floor_eq_iff]
    · norm_num
  have hfinal : runSteps (initState (1895/10)) (List.replicate 8 downRand)
      = ⟨1877/20, 1895/10, -684767209/7402343750, 1⟩ := by
    rw [show initState (1895/10) = ⟨1895/10, 1895/10, 0, 1⟩ from rfl,
      show List.replicate 8 downRand =
        [downRand, downRand, downRand, downRand,
         downRand, downRand, downRand, downRand] from rfl]
    simp only [runSteps, List.foldl]
    rw [h1, h2, h3, h4, h5, h6, h7, h8]
  rw [hfinal]
  refine ⟨rfl, rfl, ?_⟩
  norm_num

/-- C8: `reset()` restores, for every tracked symbol, the stored price to
exactly its basePrice, momentum to 0 and volatilityMultiplier to 1, and puts
the engine's trade-id counter back to 0; basePrice itself is untouched. -/
theorem reset_restores_base_state (e : Engine) :
    (∀ sym ∈ e.symbols,
        ((reset e).state sym).price = (e.state sym).basePrice ∧
        ((reset e).state sym).basePrice = (e.state sym).basePrice ∧
        ((reset e).state sym).momentum = 0 ∧
        ((reset e).state sym).volatilityMultiplier = 1) ∧
      (reset e).tradeId = 0 := by
  refine ⟨fun sym hmem => ?_, rfl⟩
  simp [reset, hmem]

/-- Witness for C8: the one-symbol default engine, applied at "AAPL". -/
theorem reset_restores_base_state_witness :
    ((reset aaplEngine).state "AAPL").price = 1895/10 ∧
      (reset aaplEngine).tradeId = 0 := by
  have h := reset_restores_base_state aaplEngine
  have hm : "AAPL" ∈ aaplEngine.symbols := by decide
  exact ⟨((h.1 "AAPL" hm).1).trans (of_decide_eq_true (by with_unfolding_all rfl)), h.2⟩

/-- C9: five consecutive failed connection attempts schedule reconnects after
exactly 3000, 4500, 6750, 10125, 15187.5 ms (in that order); a sixth failure
schedules nothing; and the `onopen` handler resets the attempt counter to 0
and the delay to 3000 ms from any state. -/
theorem reconnect_backoff_sequence :
    (WsClient.runCloses 6 WsClient.init).2 =
        [some 3000, some 4500, some 6750, some 10125, some (30375/2), none] ∧
      ∀ s : WsClient.State,
        (WsClient.onOpen s).reconnectAttempts = 0 ∧
          (WsClient.onOpen s).reconnectDelay = 3000 := by
  refine ⟨?_, fun s => ⟨rfl, rfl⟩⟩
  have e1 : WsClient.onClose ⟨0, 3000⟩ = (⟨1, 4500⟩, some 3000) := by
    norm_num [WsClient.onClose, min_def]
  have e2 : WsClient.onClose ⟨1, 4500⟩ = (⟨2, 6750⟩, some 4500) := by
    norm_num [WsClient.onClose, min_def]
  have e3 : WsClient.onClose ⟨2, 6750⟩ = (⟨3, 10125⟩, some 6750) := by
    norm_num [WsClient.onClose, min_def]
  have e4 : WsClient.onClose ⟨3, 10125⟩ = (⟨4, 30375/2⟩, some 10125) := by
    norm_num [WsClient.onClose, min_def]
  have e5 : WsClient.onClose ⟨4, 30375/2⟩ = (⟨5, 91125/4⟩, some (30375/2)) := by
    norm_num [WsClient.onClose, min_def]
  have e6 : WsClient.onClose ⟨5, 91125/4⟩ = (⟨5, 91125/4⟩, none) := by
    norm_num [WsClient.onClose]
  show (WsClient.runCloses (5+1) WsClient.init).2 = _
  rw [show WsClient.init = (⟨0, 3000⟩ : WsClient.State) from rfl]
  simp only [WsClient.runCloses, e1, e2, e3, e4, e5, e6]

/-- Witness for C9: the open-reset applied to the post-failure state. -/
theorem reconnect_backoff_sequence_witness :
    (WsClient.onOpen (WsClient.runCloses 6 WsClient.init).1).reconnectAttempts = 0 := by
  exact (reconnect_backoff_sequence.2 (WsClient.runCloses 6 WsClient.init).1).1

/-- C6 counterexample: at target rate 150 and batch size 100, StreamRunner's
tick interval is `max(1, ⌊1000 / max(1, 150/100)⌋) = 666` ms, not
`1000 / ⌈150/100⌉ = 500` ms as the claim states for every rate and batch size. -/
theorem interval_claim_false_at_150_100 :
    streamRunnerIntervalMs 150 100 = 666 ∧
      (1000 : ℚ) / ((⌈(150 : ℚ) / 100⌉ : ℤ) : ℚ) = 500 ∧
      streamRunnerIntervalMs 150 100 ≠ (1000 : ℚ) / ((⌈(150 : ℚ) / 100⌉ : ℤ) : ℚ) := by
  have hsr : streamRunnerIntervalMs 150 100 = 666 := by
    simp only [streamRunnerIntervalMs]
    rw [show max (1 : ℚ) ((150 : ℚ) / 100) = 3/2 by
          rw [max_eq_right (by norm_num)]
          norm_num,
        show ⌊(1000 : ℚ) / (3/2)⌋ = 666 by norm_num [Int.floor_eq_iff],
        show max (1 : ℤ) 666 = 666 by norm_num [max_def]]
    norm_num
  have hds : (1000 : ℚ) / ((⌈(150 : ℚ) / 100⌉ : ℤ) : ℚ) = 500 := by
    rw [show ⌈(150 : ℚ) / 100⌉ = 2 by norm_num [Int.ceil_eq_iff]]
    norm_num
  refine ⟨hsr, hds, ?_⟩
  rw [hsr, hds]
  norm_num

/-- C6 (amended): DataStreamingService's interval is exactly
`1000 / ⌈rate / batchSize⌉` for every positive rate and batch size, while
StreamRunner's interval `max(1, ⌊1000 / max(1, rate/batchSize)⌋)` agrees with
that formula whenever the rate is `k · batchSize` for a positive integer `k`
dividing 1000. -/
theorem interval_formulas (k : ℕ) (B : ℚ) (hB : 0 < B) (hk : 0 < k)
    (hdvd : (k : ℤ) ∣ 1000) :
    streamRunnerIntervalMs ((k : ℚ) * B) B = dataStreamingIntervalMs ((k : ℚ) * B) B ∧
      dataStreamingIntervalMs ((k : ℚ) * B) B = 1000 / (k : ℚ) := by
  have hBne : B ≠ 0 := ne_of_gt hB
  have hq : ((k : ℚ) * B) / B = (k : ℚ) := by field_simp
  obtain ⟨c, hc⟩ := hdvd
  have hmul : (1000 : ℤ) = c * (k : ℤ) := hc.trans (mul_comm _ _)
  have hkz : (0 : ℤ) < (k : ℤ) := by exact_mod_cast hk
  have hcpos : 0 < c := by
    rcases lt_trichotomy c 0 with h | h | h
    · nlinarith
    · rw [h] at hmul
      simp at hmul
    · exact h
  have hkqne : ((k : ℕ) : ℚ) ≠ 0 := by positivity
  have hckq : (1000 : ℚ) / ((k : ℕ) : ℚ) = ((c : ℤ) : ℚ) := by
    rw [div_eq_iff hkqne]
    exact_mod_cast hmul
  have hceil : ⌈((k : ℕ) : ℚ)⌉ = ((k : ℕ) : ℤ) := by
    exact_mod_cast Int.ceil_natCast (α := ℚ) k
  have hdss : dataStreamingIntervalMs ((k : ℚ) * B) B = 1000 / ((k : ℕ) : ℚ) := by
    simp only [dataStreamingIntervalMs]
    rw [hq, hceil]
    norm_cast
  refine ⟨?_, hdss⟩
  simp only [streamRunnerIntervalMs]
  rw [hq, hdss, hckq]
  have hone : (1 : ℚ) ≤ ((k : ℕ) : ℚ) := by exact_mod_cast hk
  rw [max_eq_right hone, hckq, Int.floor_intCast]
  have hc1 : (1 : ℤ) ≤ c := hcpos
  rw [max_eq_right hc1]

/-- Witness for C6 (amended): rate 1000, batch size 100 (the defaults):
both schedulers tick every 100 ms. -/
theorem interval_formulas_witness :
    streamRunnerIntervalMs ((10 : ℕ) * (100 : ℚ)) 100 =
        dataStreamingIntervalMs ((10 : ℕ) * (100 : ℚ)) 100 ∧
      dataStreamingIntervalMs ((10 : ℕ) * (100 : ℚ)) 100 = 1000 / ((10 : ℕ) : ℚ) :=
  interval_formulas 10 100 (by norm_num) (by norm_num) (by norm_num)

section GatewayScenarios

open BackendGateway

/-- A fresh OPEN, alive, non-failing connection with empty inbox. -/
def freshClient (i : ℕ) : Client ℕ :=
  { id := i, readyState := ReadyState.wsOpen, isAlive := true, wsIsAlive := true,
    messagesSent := 0, messagesReceived := 0, sendFails := false, inbox := [] }

/-- Gateway with 3 registered OPEN connections and an empty buffer. -/
def c2Init : Gateway ℕ := { clients := [freshClient 0, freshClient 1, freshClient 2],
                            messageBuffer := [] }

/-- The state after enqueuing trades 0..249 via `addTradeToBatch` (all at
time 0). -/
def c2AfterEnqueue : Gateway ℕ :=
  runOps ((List.range 250).map (fun i => GwOp.add i 0)) c2Init

/-- The state after the next firing of the 100 ms broadcast interval. -/
def c2Final : Gateway ℕ := intervalTick 100 c2AfterEnqueue

/-- The batch envelope produced by the `j`-th threshold flush: trades
`50j .. 50j+49`, count 50, timestamp 0. -/
def c2Batch (j : ℕ) : ServerMsg ℕ :=
  ServerMsg.batch ((List.range' (50*j) 50).map (fun i => ⟨i, 0⟩)) 50 0

/-- Client `i` after `k` threshold flushes. -/
def c2ClientAt (i k : ℕ) : Client ℕ :=
  { freshClient i with inbox := (List.range k).map c2Batch, messagesSent := k }

/-- Gateway state after `50k` enqueues: buffer drained, `k` batches delivered
to each client. -/
def c2State (k : ℕ) : Gateway ℕ :=
  { clients := [c2ClientAt 0 k, c2ClientAt 1 k, c2ClientAt 2 k], messageBuffer := [] }

/-- Folding a concatenation of operation lists runs them in sequence. -/
theorem runOps_append (l₁ l₂ : List (GwOp τ)) (g : Gateway τ) :
    runOps (l₁ ++ l₂) g = runOps l₂ (runOps l₁ g) := by
  simp [runOps, List.foldl_append]

set_option maxRecDepth 8000 in
theorem c2_chunk0 :
    runOps ((List.range' 0 50).map (fun i => GwOp.add i 0)) (c2State 0) = c2State 1 := by
  decide

set_option maxRecDepth 8000 in
theorem c2_chunk1 :
    runOps ((List.range' 50 50).map (fun i => GwOp.add i 0)) (c2State 1) = c2State 2 := by
  decide

set_option maxRecDepth 8000 in
theorem c2_chunk2 :
    runOps ((List.range' 100 50).map (fun i => GwOp.add i 0)) (c2State 2) = c2State 3 := by
  decide

set_option maxRecDepth 8000 in
theorem c2_chunk3 :
    runOps ((List.range' 150 50).map (fun i => GwOp.add i 0)) (c2State 3) = c2State 4 := by
  decide

set_option maxRecDepth 8000 in
theorem c2_chunk4 :
    runOps ((List.range' 200 50).map (fun i => GwOp.add i 0)) (c2State 4) = c2State 5 := by
  decide

set_option maxRecDepth 8000 in
theorem c2_enqueue_result : c2AfterEnqueue = c2State 5 := by
  show runOps ((List.range 250).map (fun i => GwOp.add i 0)) c2Init = _
  rw [show List.range 250 =
        List.range' 0 50 ++ List.range' 50 50 ++ List.range' 100 50 ++
          List.range' 150 50 ++ List.range' 200 50 by decide]
  simp only [List.map_append]
  rw [runOps_append, runOps_append, runOps_append, runOps_append]
  rw [show c2Init = c2State 0 from rfl]
  rw [c2_chunk0, c2_chunk1, c2_chunk2, c2_chunk3, c2_chunk4]

/-- C2 counterexample: enqueuing 250 trades into the gateway with 3 OPEN
connections delivers five batch envelopes of 50 trades each to every
connection (flushes are triggered at the 50-entry threshold inside
`addTradeToBatch`), not one envelope of 250; the buffer is empty afterwards
and the 100 ms timer flush finds nothing to send. -/
theorem batch_of_250_is_five_batches_not_one :
    (c2Final.clients.map fun c => c.inbox.length) = [5, 5, 5] ∧
      c2Final.messageBuffer = [] ∧
      ¬ (c2Final.clients.map fun c => c.inbox.length) = [1, 1, 1] := by
  have h : c2Final = intervalTick 100 (c2State 5) := by
    rw [show c2Final = intervalTick 100 c2AfterEnqueue from rfl, c2_enqueue_result]
  rw [h]
  decide

/-- C2 (amended): after the 250 enqueues and one flush interval, each of the
3 connections has received exactly five batch envelopes, each carrying 50
trades, jointly carrying all 250 trades in order; the buffer is empty. -/
theorem batch_of_250_amended :
    (c2Final.clients.map fun c => c.inbox.map (fun m => (msgTrades m).length)) =
        [[50, 50, 50, 50, 50], [50, 50, 50, 50, 50], [50, 50, 50, 50, 50]] ∧
      (c2Final.clients.map fun c => (c.inbox.map msgTrades).flatten) =
        [(List.range 250).map (fun i => ⟨i, 0⟩),
         (List.range 250).map (fun i => ⟨i, 0⟩),
         (List.range 250).map (fun i => ⟨i, 0⟩)] ∧
      c2Final.messageBuffer = [] := by
  have h : c2Final = intervalTick 100 (c2State 5) := by
    rw [show c2Final = intervalTick 100 c2AfterEnqueue from rfl, c2_enqueue_result]
  rw [h]
  decide

/-- One registered OPEN client whose `isAlive` flag was cleared by the last
heartbeat sweep. -/
def c5Init : Gateway ℕ :=
  { clients := [{ id := 7, readyState := ReadyState.wsOpen, isAlive := false,
                  wsIsAlive := true, messagesSent := 0, messagesReceived := 0,
                  sendFails := false, inbox := [] }]
    messageBuffer := [] }

/-- The state after that client sends `{type:"ping"}` at time 12345. -/
def c5After : Gateway ℕ := handleClientMessage 7 ClientMsg.ping 12345 c5Init

/-- C5: the gateway answers an application-level `{type:"ping"}` with
`{type:"pong", timestamp}` on the same connection, but `handleClientMessage`
never refreshes the connection's `isAlive` liveness flag — and the
transport-level pong handler sets `ws.isAlive`, a different object property
from the `clientInfo.isAlive` the sweep reads — so the next
`performHeartbeat` terminates the client even though it just answered. -/
theorem ping_answered_but_liveness_not_refreshed :
    inboxAt c5After 0 = [ServerMsg.pong 12345] ∧
      (c5After.clients.map fun c => c.messagesReceived) = [1] ∧
      (c5After.clients.map fun c => c.isAlive) = [false] ∧
      (performHeartbeat c5After).clients = [] ∧
      (performHeartbeat (onTransportPong 7 c5After)).clients = [] := by
  decide

/-- Lemma: `broadcastBatch` never changes how many clients are registered. -/
theorem broadcastBatch_clients_length (now : ℕ) (g : Gateway τ) :
    (broadcastBatch now g).clients.length = g.clients.length := by
  unfold broadcastBatch
  split
  · rfl
  · simp

/-- Neither gateway operation changes how many clients are registered. -/
theorem applyOp_clients_length (op : GwOp τ) (g : Gateway τ) :
    (applyOp g op).clients.length = g.clients.length := by
  cases op with
  | add t now =>
      simp only [applyOp, addTradeToBatch]
      split
      · exact broadcastBatch_clients_length _ _
      · rfl
  | flush now => exact broadcastBatch_clients_length _ _

/-- With at least one registered client, one operation keeps the buffer at
49 entries or fewer: an enqueue that reaches the 50-entry threshold flushes
it back to empty. -/
theorem applyOp_buffer_le (g : Gateway τ) (op : GwOp τ)
    (hc : g.clients.length ≠ 0) (h : g.messageBuffer.length ≤ 49) :
    (applyOp g op).messageBuffer.length ≤ 49 := by
  cases op with
  | flush now =>
      simp only [applyOp, broadcastBatch]
      split
      · exact h
      · simp
  | add t now =>
      simp only [applyOp, addTradeToBatch, broadcastBatch, messageBufferSize]
      by_cases h50 : 50 ≤ (g.messageBuffer ++ [(⟨t, now⟩ : BufMsg τ)]).length
      · rw [if_pos h50]
        split
        · next hguard =>
            exfalso
            rcases hguard with h0 | h0
            · simp only [List.length_append, List.length_singleton] at h0
              omega
            · exact hc (by simpa using h0)
        · simp
      · rw [if_neg h50]
        simp only [List.length_append, List.length_singleton] at h50 ⊢
        omega

/-- With at least one registered client, any sequence of enqueues and
flushes starting from a ≤ 49-entry buffer keeps the buffer at ≤ 49 entries. -/
theorem runOps_buffer_le (ops : List (GwOp τ)) :
    ∀ g : Gateway τ, g.clients.length ≠ 0 → g.messageBuffer.length ≤ 49 →
      (runOps ops g).messageBuffer.length ≤ 49 := by
  induction ops with
  | nil => intro g _ h; exact h
  | cons op ops ih =>
      intro g hc h
      have hstep : runOps (op :: ops) g = runOps ops (applyOp g op) := rfl
      rw [hstep]
      exact ih (applyOp g op)
        (by rw [applyOp_clients_length]; exact hc)
        (applyOp_buffer_le g op hc h)

/-- With no registered client, `broadcastBatch` returns without draining. -/
theorem broadcastBatch_no_clients (now : ℕ) (g : Gateway τ) (h : g.clients = []) :
    broadcastBatch now g = g := by
  unfold broadcastBatch
  rw [if_pos]
  right
  simp [h]

/-- With no registered client, an enqueue only appends to the buffer. -/
theorem addTradeToBatch_no_clients (t : τ) (now : ℕ) (g : Gateway τ)
    (h : g.clients = []) :
    addTradeToBatch t now g =
      { g with messageBuffer := g.messageBuffer ++ [⟨t, now⟩] } := by
  simp only [addTradeToBatch]
  split
  · exact broadcastBatch_no_clients now _ h
  · rfl

/-- With no registered client, `n` enqueues grow the buffer by exactly `n`. -/
theorem runOps_adds_no_clients (ts : List τ) (now : ℕ) :
    ∀ g : Gateway τ, g.clients = [] →
      (runOps (ts.map (fun t => GwOp.add t now)) g).messageBuffer.length =
        g.messageBuffer.length + ts.length := by
  induction ts with
  | nil => intro g _; simp [runOps]
  | cons t ts ih =>
      intro g hg
      have hstep :
          runOps ((t :: ts).map (fun t => GwOp.add t now)) g =
            runOps (ts.map (fun t => GwOp.add t now)) (addTradeToBatch t now g) := rfl
      rw [hstep, addTradeToBatch_no_clients t now g hg]
      have hrec := ih
        { clients := g.clients, messageBuffer := g.messageBuffer ++ [⟨t, now⟩] } hg
      rw [hrec]
      show (g.messageBuffer ++ [(⟨t, now⟩ : BufMsg τ)]).length + ts.length =
        g.messageBuffer.length + (t :: ts).length
      simp only [List.length_append, List.length_singleton, List.length_cons,
        List.length_nil]
      omega

/-- C10: starting from the constructor's empty buffer, any sequence of
`addTradeToBatch` and flush operations keeps the outbound buffer at 50
entries or fewer as long as at least one client is registered (enqueues
trigger an immediate flush at the 50-entry threshold); with zero registered
clients `broadcastBatch` returns without draining, so `n` enqueues leave
`n` entries — the buffer grows without bound. -/
theorem outbound_buffer_bound (τ : Type) :
    (∀ (cs : List (Client τ)) (ops : List (GwOp τ)), cs.length ≠ 0 →
        (runOps ops { clients := cs, messageBuffer := [] }).messageBuffer.length ≤ 50) ∧
      ∀ (ts : List τ) (now : ℕ),
        (runOps (ts.map (fun t => GwOp.add t now))
            { clients := ([] : List (Client τ)), messageBuffer := [] }).messageBuffer.length
          = ts.length := by
  constructor
  · intro cs ops hc
    have h := runOps_buffer_le ops { clients := cs, messageBuffer := [] } hc (by simp)
    omega
  · intro ts now
    have h := runOps_adds_no_clients ts now
      { clients := ([] : List (Client τ)), messageBuffer := [] } rfl
    simpa using h

/-- Witness for C10: one client and one enqueue keep the buffer bounded;
three enqueues with no clients leave three entries. -/
theorem outbound_buffer_bound_witness :
    ([freshClient 0].length ≠ 0) ∧
      (runOps [GwOp.add 3 0]
          { clients := [freshClient 0], messageBuffer := [] }).messageBuffer.length ≤ 50 ∧
      (runOps ([1, 2, 3].map (fun t => GwOp.add t 0))
          { clients := ([] : List (Client ℕ)), messageBuffer := [] }).messageBuffer.length
        = 3 :=
  ⟨by decide,
   (outbound_buffer_bound ℕ).1 [freshClient 0] [GwOp.add 3 0] (by decide),
   (outbound_buffer_bound ℕ).2 [1, 2, 3] 0⟩

/-- C7: during one flush, every OPEN connection whose send does not throw
receives that flush's batch envelope exactly once (its sent-counter rises by
one), no matter which other connections are closed or throwing. -/
theorem flush_isolates_send_failures (g : Gateway τ) (now i : ℕ)
    (hi : i < g.clients.length) (hbuf : g.messageBuffer ≠ [])
    (hopen : (g.clients.get ⟨i, hi⟩).readyState = ReadyState.wsOpen)
    (hok : (g.clients.get ⟨i, hi⟩).sendFails = false) :
    inboxAt (broadcastBatch now g) i =
        inboxAt g i ++ [ServerMsg.batch g.messageBuffer g.messageBuffer.length now] ∧
      sentAt (broadcastBatch now g) i = sentAt g i + 1 := by
  have hguard : ¬(g.messageBuffer.length = 0 ∨ g.clients.length = 0) := by
    push_neg
    constructor
    · simpa using hbuf
    · omega
  have hb : broadcastBatch now g =
      { clients := g.clients.map (fun c =>
          if c.readyState = ReadyState.wsOpen then
            if c.sendFails then c
            else
              { c with
                inbox := c.inbox ++
                  [ServerMsg.batch g.messageBuffer g.messageBuffer.length now]
                messagesSent := c.messagesSent + 1 }
          else c)
        messageBuffer := [] } := by
    unfold broadcastBatch
    rw [if_neg hguard]
  rw [hb]
  have hlen1 : i < (g.clients.map (fun c => c.inbox)).length := by simpa using hi
  constructor
  · simp only [inboxAt, List.map_map]
    rw [List.getD_eq_getElem _ _ (by simpa using hi),
        List.getD_eq_getElem _ _ hlen1]
    simp only [List.getElem_map, Function.comp]
    have hopen' : g.clients[i].readyState = ReadyState.wsOpen := hopen
    have hok' : g.clients[i].sendFails = false := hok
    rw [hopen', hok']
    simp
  · simp only [sentAt, List.map_map]
    rw [List.getD_eq_getElem _ _ (by simpa using hi),
        List.getD_eq_getElem _ _ (by simpa using hi)]
    simp only [List.getElem_map, Function.comp]
    have hopen' : g.clients[i].readyState = ReadyState.wsOpen := hopen
    have hok' : g.clients[i].sendFails = false := hok
    rw [hopen', hok']
    simp

/-- Witness for C7: two OPEN clients, the first one's send throws; the
second still receives the flush's batch and its counter rises. -/
theorem flush_isolates_send_failures_witness :
    let bad : Client ℕ := { freshClient 0 with sendFails := true }
    let g : Gateway ℕ := { clients := [bad, freshClient 1], messageBuffer := [⟨9, 4⟩] }
    inboxAt (broadcastBatch 5 g) 1 =
        inboxAt g 1 ++ [ServerMsg.batch [⟨9, 4⟩] 1 5] ∧
      sentAt (broadcastBatch 5 g) 1 = sentAt g 1 + 1 := by
  intro bad g
  exact flush_isolates_send_failures g 5 1 (by decide) (by decide)
    (by decide) (by decide)

end GatewayScenarios

section SchedulerTheorems

open TradeGenerator StreamRunner

/-- Lemma: `generateBatch(count)` returns exactly `count` trades. -/
theorem generateBatch_length :
    ∀ (count : ℕ) (e : Engine) (rand : ℕ → BatchRand) (now : ℕ),
      (generateBatch e count rand now).2.length = count := by
  intro count
  induction count with
  | zero => intro e rand now; rfl
  | succ n ih =>
      intro e rand now
      simp only [generateBatch, List.length_cons, ih]

/-- A stopped runner is left untouched by any number of timer firings:
`tick` returns immediately when `_running` is false. -/
theorem runTicks_stopped :
    ∀ (k : ℕ) (rnds : ℕ → ℕ → BatchRand) (now : ℕ) (R : Runner),
      R.running = false → runTicks rnds now k R = R := by
  intro k
  induction k with
  | zero => intro rnds now R _; rfl
  | succ n ih =>
      intro rnds now R h
      show runTicks (fun i => rnds (i + 1)) now n (tick (rnds 0) now R) = R
      have htick : tick (rnds 0) now R = R := by
        simp [tick, h]
      rw [htick]
      exact ih _ now R h

/-- Core counting invariant of the emission loop: starting from a running,
unresolved runner that has not overshot its cap, `k` firings leave
`min (emitted + k·batchSize) totalTrades` trades emitted, and once enough
firings have passed to exhaust the cap and fire once more, the runner has
stopped and resolved. -/
theorem runTicks_spec (now : ℕ) :
    ∀ (k : ℕ) (rnds : ℕ → ℕ → BatchRand) (R : Runner),
      0 < R.batchSize → R.running = true → R.resolved = false →
      R.totalEmitted ≤ R.totalTrades →
      (runTicks rnds now k R).totalEmitted
          = min (R.totalEmitted + k * R.batchSize) R.totalTrades
        ∧ (R.totalTrades + R.batchSize ≤ R.totalEmitted + k * R.batchSize →
            (runTicks rnds now k R).running = false ∧
              (runTicks rnds now k R).resolved = true) := by
  intro k
  induction k with
  | zero =>
      intro rnds R hB hrun hres hle
      constructor
      · show R.totalEmitted = min (R.totalEmitted + 0 * R.batchSize) R.totalTrades
        omega
      · intro hcond
        exfalso
        simp only [Nat.zero_mul] at hcond
        omega
  | succ n ih =>
      intro rnds R hB hrun hres hle
      have hshow :
          runTicks rnds now (n + 1) R =
            runTicks (fun i => rnds (i + 1)) now n (tick (rnds 0) now R) := rfl
      by_cases hdone : R.totalTrades ≤ R.totalEmitted
      · have htick : tick (rnds 0) now R =
            { R with running := false, resolved := true } := by
          simp [tick, hrun, hdone]
        have hstop :
            runTicks (fun i => rnds (i + 1)) now n
                { R with running := false, resolved := true } =
              { R with running := false, resolved := true } :=
          runTicks_stopped n _ now _ rfl
        rw [hshow, htick, hstop]
        have hmul : 0 < (n + 1) * R.batchSize := Nat.mul_pos (Nat.succ_pos n) hB
        constructor
        · show R.totalEmitted = min (R.totalEmitted + (n + 1) * R.batchSize) R.totalTrades
          omega
        · intro _
          exact ⟨rfl, rfl⟩
      · have htick : tick (rnds 0) now R =
            { R with
              engine := (generateBatch R.engine
                (min R.batchSize (R.totalTrades - R.totalEmitted)) (rnds 0) now).1
              totalEmitted := R.totalEmitted +
                min R.batchSize (R.totalTrades - R.totalEmitted) } := by
          simp only [tick]
          rw [if_neg (by simp [hrun]), if_neg hdone]
          rw [generateBatch_length]
        push_neg at hdone
        set c := min R.batchSize (R.totalTrades - R.totalEmitted) with hc
        have hrec := ih (fun i => rnds (i + 1))
          { R with
            engine := (generateBatch R.engine c (rnds 0) now).1
            totalEmitted := R.totalEmitted + c }
          hB hrun hres (show R.totalEmitted + c ≤ R.totalTrades by omega)
        have hrec1 :
            (runTicks (fun i => rnds (i + 1)) now n
                { R with
                  engine := (generateBatch R.engine c (rnds 0) now).1
                  totalEmitted := R.totalEmitted + c }).totalEmitted
              = min (R.totalEmitted + c + n * R.batchSize) R.totalTrades := hrec.1
        rw [hshow, htick]
        have hmul : (n + 1) * R.batchSize = n * R.batchSize + R.batchSize :=
          Nat.succ_mul n R.batchSize
        constructor
        · rw [hrec1]
          omega
        · intro hcond
          rw [hmul] at hcond
          rcases Nat.eq_zero_or_pos n with hn | hn
          · exfalso
            subst hn
            simp only [Nat.zero_mul] at hcond
            omega
          · have hble : R.batchSize ≤ n * R.batchSize :=
              Nat.le_mul_of_pos_left R.batchSize hn
            exact hrec.2
              (show R.totalTrades + R.batchSize ≤ R.totalEmitted + c + n * R.batchSize
                by omega)

/-- C4: with a finite cap `N` and a positive batch size, every tick emits
`min(batchSize, remaining)` trades — after `k` ticks exactly
`min(k·batchSize, N)` have been emitted — so across all batches exactly `N`
trades are emitted; by tick `N+1` the runner has stopped and resolved the
`start()` promise with `isRunning = false`; and after `stop()` no further
tick emits anything (the state is frozen). -/
theorem scheduler_finite_cap (N B : ℕ) (hB : 0 < B) (e : TradeGenerator.Engine)
    (rnds : ℕ → ℕ → TradeGenerator.BatchRand) (now : ℕ) :
    (∀ k, (runTicks rnds now k (start N B e)).totalEmitted = min (k * B) N) ∧
      (runTicks rnds now (N + 1) (start N B e)).totalEmitted = N ∧
      (runTicks rnds now (N + 1) (start N B e)).running = false ∧
      (runTicks rnds now (N + 1) (start N B e)).resolved = true ∧
      ∀ (R : Runner) (k : ℕ) (rnds2 : ℕ → ℕ → TradeGenerator.BatchRand),
        runTicks rnds2 now k (StreamRunner.stop R) = StreamRunner.stop R := by
  have hspec := fun k => runTicks_spec now k rnds (start N B e) hB rfl rfl (Nat.zero_le N)
  have hN1 : N + 1 ≤ (N + 1) * B := Nat.le_mul_of_pos_right (N + 1) hB
  have hNB : N ≤ N * B := Nat.le_mul_of_pos_right N hB
  have hmul : (N + 1) * B = N * B + B := Nat.succ_mul N B
  refine ⟨fun k => ?_, ?_, ?_, ?_, fun R k rnds2 => runTicks_stopped k rnds2 now _ rfl⟩
  · have h : (runTicks rnds now k (start N B e)).totalEmitted = min (0 + k * B) N :=
      (hspec k).1
    simpa using h
  · have h : (runTicks rnds now (N + 1) (start N B e)).totalEmitted
        = min (0 + (N + 1) * B) N := (hspec (N + 1)).1
    rw [h]
    omega
  · exact ((hspec (N + 1)).2 (show N + B ≤ 0 + (N + 1) * B by omega)).1
  · exact ((hspec (N + 1)).2 (show N + B ≤ 0 + (N + 1) * B by omega)).2

/-- Witness for C4: cap 5, batch size 2 — three emitting ticks (2+2+1
trades), the fourth tick resolves; evaluated at tick 6. -/
theorem scheduler_finite_cap_witness :
    (0 < 2) ∧
      (runTicks (fun _ _ => ⟨0, downRand⟩) 0 6
          (start 5 2 TradeGenerator.aaplEngine)).totalEmitted = 5 ∧
      (runTicks (fun _ _ => ⟨0, downRand⟩) 0 6
          (start 5 2 TradeGenerator.aaplEngine)).running = false :=
  ⟨by decide,
   (scheduler_finite_cap 5 2 (by decide) TradeGenerator.aaplEngine
      (fun _ _ => ⟨0, downRand⟩) 0).2.1,
   (scheduler_finite_cap 5 2 (by decide) TradeGenerator.aaplEngine
      (fun _ _ => ⟨0, downRand⟩) 0).2.2.1⟩

end SchedulerTheorems

namespace SimpleGateway

/-- The event trace of a client that answers before every sweep: before the
`k`-th sweep (at time `sₖ`) the client answers at time `aₖ`. -/
def answerTrace (cid : ℕ) : List (ℕ × ℕ) → List Ev
  | [] => []
  | p :: rest => Ev.answer cid p.1 :: Ev.sweep p.2 :: answerTrace cid rest

end SimpleGateway

section HeartbeatTheorems

open SimpleGateway

/-- A client that answers (pong frame or ping message) before each sweep —
within 60 000 ms of the sweep, one sweep interval — stays registered through
any number of sweeps. -/
theorem answers_keep_registered (cid : ℕ) :
    ∀ (pairs : List (ℕ × ℕ)) (g : Gateway),
      (∀ p ∈ pairs, p.2 ≤ p.1 + 60000) →
      (∃ c ∈ g.clients, c.id = cid) →
      ∃ c ∈ (runEvents (answerTrace cid pairs) g).clients, c.id = cid := by
  intro pairs
  induction pairs with
  | nil => intro g _ hex; exact hex
  | cons p rest ih =>
      intro g hp hex
      have hstep :
          runEvents (answerTrace cid (p :: rest)) g =
            runEvents (answerTrace cid rest)
              (heartbeatSweep p.2 (markAlive cid p.1 g)) := rfl
      rw [hstep]
      apply ih _ (fun q hq => hp q (List.mem_cons_of_mem p hq))
      obtain ⟨c, hcg, hcid⟩ := hex
      refine ⟨{ c with isAlive := true, lastHeartbeat := p.1 }, ?_, hcid⟩
      have h1 : ({ c with isAlive := true, lastHeartbeat := p.1 } : Client)
          ∈ (markAlive cid p.1 g).clients := by
        simp only [markAlive]
        have hmap := List.mem_map_of_mem
          (f := fun c' : Client =>
            if c'.id = cid then { c' with isAlive := true, lastHeartbeat := p.1 }
            else c') hcg
        simpa [hcid] using hmap
      simp only [heartbeatSweep, List.mem_filter, decide_eq_true_eq]
      refine ⟨h1, ?_⟩
      have hps := hp p (List.mem_cons_self p rest)
      omega

/-- C3: a registered connection that answers no liveness probe across two
consecutive 60 s sweep intervals is gone from the registry by the sweep two
intervals later (its last heartbeat is then more than the 90 s threshold
old) and a subsequent broadcast delivers nothing to it; a connection that
answers — via pong frame or ping message — before each next sweep remains
registered through every sweep. -/
theorem heartbeat_removes_silent_keeps_answering (g : Gateway) (cid t : ℕ) :
    ((∀ c ∈ g.clients, c.id = cid → c.lastHeartbeat ≤ t) →
        (∀ c ∈ (runEvents [Ev.sweep t, Ev.sweep (t + 60000), Ev.sweep (t + 120000)]
              g).clients, c.id ≠ cid) ∧
          ∀ (tag : ℕ) (e : ℕ × ℕ),
            e ∈ (applyEv (runEvents [Ev.sweep t, Ev.sweep (t + 60000),
                  Ev.sweep (t + 120000)] g) (Ev.broadcast tag)).log →
              e ∈ g.log ∨ e.1 ≠ cid) ∧
      ∀ (pairs : List (ℕ × ℕ)),
        (∀ p ∈ pairs, p.2 ≤ p.1 + 60000) →
        (∃ c ∈ g.clients, c.id = cid) →
        ∃ c ∈ (runEvents (answerTrace cid pairs) g).clients, c.id = cid := by
  constructor
  · intro hh
    have hmem : ∀ c ∈ (runEvents [Ev.sweep t, Ev.sweep (t + 60000),
          Ev.sweep (t + 120000)] g).clients,
        c ∈ g.clients ∧ (t + 120000) - c.lastHeartbeat ≤ 90000 := by
      intro c hc
      have hc' : c ∈ (heartbeatSweep (t + 120000) (heartbeatSweep (t + 60000)
          (heartbeatSweep t g))).clients := hc
      simp only [heartbeatSweep, List.mem_filter, decide_eq_true_eq] at hc'
      exact ⟨hc'.1.1.1, hc'.2⟩
    have hremoved : ∀ c ∈ (runEvents [Ev.sweep t, Ev.sweep (t + 60000),
        Ev.sweep (t + 120000)] g).clients, c.id ≠ cid := by
      intro c hc hcid
      obtain ⟨hcg, hlast⟩ := hmem c hc
      have hle := hh c hcg hcid
      omega
    refine ⟨hremoved, ?_⟩
    intro tag e
    have hlog : (runEvents [Ev.sweep t, Ev.sweep (t + 60000),
        Ev.sweep (t + 120000)] g).log = g.log := rfl
    simp only [applyEv, broadcast]
    split
    · intro he
      exact Or.inl (hlog ▸ he)
    · intro he
      simp only [List.mem_append, List.mem_map] at he
      rcases he with he | ⟨c, hcmem, rfl⟩
      · exact Or.inl (hlog ▸ he)
      · exact Or.inr (hremoved c (List.mem_of_mem_filter hcmem))
  · exact fun pairs => answers_keep_registered cid pairs g

/-- A one-client gateway used to witness C3. -/
def c3Gw : Gateway :=
  { clients := [{ id := 1, isAlive := true, lastHeartbeat := 0,
                  readyState := ReadyState.wsOpen }]
    log := [] }

/-- Witness for C3: the client registered at time 0 that never answers is
gone after the sweeps at 0 s, 60 s and 120 s; had it answered at 50 s it
would survive the 60 s sweep. -/
theorem heartbeat_removes_silent_keeps_answering_witness :
    (∀ c ∈ (runEvents [Ev.sweep 0, Ev.sweep 60000, Ev.sweep 120000]
        c3Gw).clients, c.id ≠ 1) ∧
      ∃ c ∈ (runEvents (answerTrace 1 [(50000, 60000)]) c3Gw).clients, c.id = 1 :=
  ⟨((heartbeat_removes_silent_keeps_answering c3Gw 1 0).1 (by decide)).1,
   (heartbeat_removes_silent_keeps_answering c3Gw 1 0).2 [(50000, 60000)]
     (by decide) (by decide)⟩

end HeartbeatTheorems

end ClaimTheorems

end Krylex
